import Mathlib

/-!
Shallow embedding of the DX12 command-encoding core
(`wgpu-hal/src/dx12/command.rs`).

Native D3D12 calls recorded on the command list are modelled as an
explicit event list (`NativeCall`); the mutable encoder/pass state is
threaded explicitly.  Machine integers are modelled as `Nat` (none of
the verified properties involve overflow).  Supporting definitions that
live outside `command.rs` (the `conv` usage-to-state maps, crate
constants, `Pass::clear`, `Texture::calc_subresource`) are either taken
as parameters or modelled from the spec, as noted on each definition.
-/

namespace Dx12

/-- `D3D12_RESOURCE_BARRIER_ALL_SUBRESOURCES` sentinel (external D3D12
API constant). -/
def ALL_SUBRESOURCES : Nat := 0xffffffff

/-- `D3D12_RESOURCE_STATE_RENDER_TARGET` (external D3D12 API constant). -/
def STATE_RENDER_TARGET : Nat := 0x4

/-- `D3D12_RESOURCE_STATE_RESOLVE_DEST` (external D3D12 API constant). -/
def STATE_RESOLVE_DEST : Nat := 0x1000

/-- `D3D12_RESOURCE_STATE_RESOLVE_SOURCE` (external D3D12 API constant). -/
def STATE_RESOLVE_SOURCE : Nat := 0x2000

/-- Modelled from the spec: `crate::BufferUses` is a bitflag set of
buffer usages (the flag declarations live outside `command.rs`); the
exclusive storage-write usage is one fixed flag bit.  Only equality
with this value is ever tested by the embedded code. -/
def BufferUses.STORAGE_WRITE : Nat := 256

/-- Modelled from the spec: `crate::TextureUses` is a bitflag set of
texture usages; the exclusive storage-write usage is one fixed flag
bit. -/
def TextureUses.STORAGE_WRITE : Nat := 256

/-- The payload of a `D3D12_RESOURCE_BARRIER_TYPE_TRANSITION` barrier. -/
structure TransitionData where
  resource : Nat
  subresource : Nat
  stateBefore : Nat
  stateAfter : Nat
deriving DecidableEq

/-- A barrier descriptor pushed into the scratch list: either a
transition barrier or a read/write hazard (UAV) barrier. -/
inductive Barrier where
  | transition : TransitionData → Barrier
  | uav : Nat → Barrier
deriving DecidableEq

/-- A vertex-buffer view record (`D3D12_VERTEX_BUFFER_VIEW`). -/
structure VertexBufferView where
  bufferLocation : Nat
  sizeInBytes : Nat
  strideInBytes : Nat
deriving DecidableEq

instance : Inhabited VertexBufferView := ⟨⟨0, 0, 0⟩⟩

/-- A native call recorded on the D3D12 command list. -/
inductive NativeCall where
  | resourceBarrier (barriers : List Barrier)
  | iaSetVertexBuffers (index : Nat) (view : VertexBufferView)
  | drawCall (vertexCount instanceCount startVertex startInstance : Nat)
  | drawIndexedCall (indexCount instanceCount startIndex : Nat)
      (baseVertex : Int) (startInstance : Nat)
  | executeIndirect (signature maxCount buffer offset : Nat)
      (countBuffer : Option Nat) (countOffset : Nat)
  | copyBufferRegion (dst dstOffset src srcOffset size : Nat)
  | resolveSubresource (dst dstSub src srcSub format : Nat)
  | setGraphicsRootDescriptorTable (index descriptor : Nat)
  | setComputeRootDescriptorTable (index descriptor : Nat)
  | setGraphicsRootConstantBufferView (index address : Nat)
  | setComputeRootConstantBufferView (index address : Nat)
  | setGraphicsRootShaderResourceView (index address : Nat)
  | setComputeRootShaderResourceView (index address : Nat)
  | setGraphicsRootUnorderedAccessView (index address : Nat)
  | setComputeRootUnorderedAccessView (index address : Nat)
  | setGraphicsRootSignatureCall (signature : Nat)
  | setComputeRootSignatureCall (signature : Nat)
  | setPipelineState (pso : Nat)
  | iaSetPrimitiveTopology (topology : Nat)
  | setDescriptorHeaps (heaps : List Nat)
  | beginEvent
  | endEvent
deriving DecidableEq

/-! ## Barrier synthesis for buffers (`transition_buffers`) -/

/-- Input record of `crate::BufferBarrier`: the buffer resource and the
usage pair `usage.start → usage.end`. -/
structure BufferBarrier where
  buffer : Nat
  usageStart : Nat
  usageEnd : Nat
deriving DecidableEq

/-- The barriers pushed for one `crate::BufferBarrier` by the loop body
of `transition_buffers`.  `mapState` stands for
`conv::map_buffer_usage_to_state` (defined outside `command.rs`), taken
as a parameter. -/
def bufferBarrier (mapState : Nat → Nat) (b : BufferBarrier) : List Barrier :=
  let s0 := mapState b.usageStart
  let s1 := mapState b.usageEnd
  if s0 ≠ s1 then
    [.transition ⟨b.buffer, ALL_SUBRESOURCES, s0, s1⟩]
  else if b.usageStart = BufferUses.STORAGE_WRITE then
    [.uav b.buffer]
  else
    []

/-- `transition_buffers`: clears the scratch barrier list (`temp0` is
the previous contents, dropped in full), accumulates the barriers for
each input, and flushes them as a single `ResourceBarrier` call when
nonempty.  Returns the final scratch list and the emitted native
calls. -/
def transitionBuffers (mapState : Nat → Nat) (temp0 : List Barrier)
    (barriers : List BufferBarrier) : List Barrier × List NativeCall :=
  let cleared := temp0.drop temp0.length
  let temp := barriers.foldl (fun acc b => acc ++ bufferBarrier mapState b) cleared
  (temp, if temp.isEmpty then [] else [.resourceBarrier temp])

/-! ## Barrier synthesis for textures (`transition_textures`) -/

/-- `wgt::TextureAspect`. -/
inductive TextureAspect where
  | All
  | StencilOnly
  | DepthOnly
deriving DecidableEq

/-- The texture fields consulted by `transition_textures`. -/
structure Texture where
  resource : Nat
  mipLevelCount : Nat
  arrayLayerCount : Nat
deriving DecidableEq

/-- Modelled from the spec: `Texture::calc_subresource` lives in the
dx12 module root, outside `command.rs`.  A subresource is one
(mip level, array layer, aspect-plane) unit, addressable independently;
the standard D3D12 linearisation is
`mip + mipCount * (layer + layerCount * plane)`. -/
def Texture.calcSubresource (t : Texture) (mip layer plane : Nat) : Nat :=
  mip + t.mipLevelCount * (layer + t.arrayLayerCount * plane)

/-- `wgt::ImageSubresourceRange`: optional counts mean
"to the end of the resource". -/
structure SubresourceRange where
  aspect : TextureAspect
  baseMipLevel : Nat
  mipLevelCount : Option Nat
  baseArrayLayer : Nat
  arrayLayerCount : Option Nat
deriving DecidableEq

/-- Input record of `crate::TextureBarrier`. -/
structure TextureBarrier where
  texture : Texture
  range : SubresourceRange
  usageStart : Nat
  usageEnd : Nat
deriving DecidableEq

/-- The resolved mip-level count of a texture barrier range
(`match barrier.range.mip_level_count`). -/
def resolvedMipCount (b : TextureBarrier) : Nat :=
  match b.range.mipLevelCount with
  | some count => count
  | none => b.texture.mipLevelCount - b.range.baseMipLevel

/-- The resolved array-layer count of a texture barrier range. -/
def resolvedArrayCount (b : TextureBarrier) : Nat :=
  match b.range.arrayLayerCount with
  | some count => count
  | none => b.texture.arrayLayerCount - b.range.baseArrayLayer

/-- Whether the barrier range covers the entire texture: all aspects,
all mip levels, all array layers. -/
def coversWholeTexture (b : TextureBarrier) : Prop :=
  b.range.aspect = TextureAspect.All
    ∧ b.range.baseMipLevel + resolvedMipCount b = b.texture.mipLevelCount
    ∧ b.range.baseArrayLayer + resolvedArrayCount b = b.texture.arrayLayerCount

instance (b : TextureBarrier) : Decidable (coversWholeTexture b) := by
  unfold coversWholeTexture; infer_instance

/-- The barriers pushed for one `crate::TextureBarrier` by the loop
body of `transition_textures`.  `mapState` stands for
`conv::map_texture_usage_to_state`. -/
def textureBarrierList (mapState : Nat → Nat) (b : TextureBarrier) : List Barrier :=
  let s0 := mapState b.usageStart
  let s1 := mapState b.usageEnd
  if s0 ≠ s1 then
    if coversWholeTexture b then
      [.transition ⟨b.texture.resource, ALL_SUBRESOURCES, s0, s1⟩]
    else
      (List.range (resolvedMipCount b)).flatMap fun relMipLevel =>
        (List.range (resolvedArrayCount b)).map fun relArrayLayer =>
          .transition ⟨b.texture.resource,
            b.texture.calcSubresource (b.range.baseMipLevel + relMipLevel)
              (b.range.baseArrayLayer + relArrayLayer) 0, s0, s1⟩
  else if b.usageStart = TextureUses.STORAGE_WRITE then
    [.uav b.texture.resource]
  else
    []

/-- `transition_textures`: same clear/accumulate/flush shape as
`transitionBuffers`. -/
def transitionTextures (mapState : Nat → Nat) (temp0 : List Barrier)
    (barriers : List TextureBarrier) : List Barrier × List NativeCall :=
  let cleared := temp0.drop temp0.length
  let temp := barriers.foldl (fun acc b => acc ++ textureBarrierList mapState b) cleared
  (temp, if temp.isEmpty then [] else [.resourceBarrier temp])

/-! ## Pass state and the root binding table -/

/-- `super::PassKind`. -/
inductive PassKind where
  | Render
  | Compute
  | Transfer
deriving DecidableEq

/-- `super::BufferViewKind`. -/
inductive BufferViewKind where
  | Constant
  | ShaderResource
  | UnorderedAccess
deriving DecidableEq

/-- `super::RootElement`: the last value written to a root parameter
slot. -/
inductive RootElement where
  | Empty
  | Table (descriptor : Nat)
  | DynamicOffsetBuffer (kind : BufferViewKind) (address : Nat)
deriving DecidableEq

/-- Modelled from the spec: `crate::MAX_VERTEX_BUFFERS`, the fixed size
of the per-pass vertex-buffer-view array (declared outside
`command.rs`). -/
def MAX_VERTEX_BUFFERS : Nat := 16

/-- Modelled from the spec: the fixed capacity of the per-pass
root-element table (`MAX_ROOT_ELEMENTS`, declared outside
`command.rs`); a small statically-bounded slot count per pipeline
layout. -/
def MAX_ROOT_ELEMENTS : Nat := 64

/-- `super::PassResolve`: a pending MSAA resolve recorded during
`begin_render_pass`.  `src`/`dst` are (resource, subresource index)
pairs (`target_base`). -/
structure PassResolve where
  src : Nat × Nat
  dst : Nat × Nat
  format : Nat
deriving DecidableEq

/-- `super::Pass`: state of the currently open pass. -/
structure Pass where
  kind : PassKind
  signature : Nat
  rootElements : List RootElement
  dirtyVertexBuffers : Nat
  vertexBuffers : List VertexBufferView
  resolves : List PassResolve
  hasLabel : Bool
deriving DecidableEq

/-- Modelled from the spec: `Pass::clear` (declared outside
`command.rs`) resets all pass-local fields to empty: no pass kind
(`Transfer`), null signature, empty root table, no dirty vertex
buffers, no resolves, no label scope. -/
def Pass.clear : Pass where
  kind := .Transfer
  signature := 0
  rootElements := List.replicate MAX_ROOT_ELEMENTS .Empty
  dirtyVertexBuffers := 0
  vertexBuffers := List.replicate MAX_VERTEX_BUFFERS default
  resolves := []
  hasLabel := false

/-- The native call emitted for one root element at `index`, per pass
kind (the match inside `update_root_elements`); `Empty` slots and
`Transfer` passes emit nothing. -/
def emitRootElement (kind : PassKind) (index : Nat) : RootElement → Option NativeCall
  | .Empty => none
  | .Table descriptor =>
    match kind with
    | .Render => some (.setGraphicsRootDescriptorTable index descriptor)
    | .Compute => some (.setComputeRootDescriptorTable index descriptor)
    | .Transfer => none
  | .DynamicOffsetBuffer kind2 address =>
    match kind, kind2 with
    | .Render, .Constant => some (.setGraphicsRootConstantBufferView index address)
    | .Compute, .Constant => some (.setComputeRootConstantBufferView index address)
    | .Render, .ShaderResource => some (.setGraphicsRootShaderResourceView index address)
    | .Compute, .ShaderResource => some (.setComputeRootShaderResourceView index address)
    | .Render, .UnorderedAccess => some (.setGraphicsRootUnorderedAccessView index address)
    | .Compute, .UnorderedAccess => some (.setComputeRootUnorderedAccessView index address)
    | .Transfer, _ => none

/-- `update_root_elements`: for each index in `start..stop`, emit the
kind-appropriate native binding call for the non-empty root slots. -/
def updateRootElements (pass : Pass) (start stop : Nat) : List NativeCall :=
  (List.range' start (stop - start)).filterMap fun index =>
    emitRootElement pass.kind index (pass.rootElements.getD index .Empty)

/-- Per-bind-group root-slot metadata exposed by the pipeline layout
(`super::BindGroupInfo`): the base root index, which descriptor tables
are present (`TableTypes::SRV_CBV_UAV`, `TableTypes::SAMPLERS`), and
the dynamic-offset buffer kinds. -/
structure BindGroupInfo where
  baseRootIndex : Nat
  tablesViews : Bool
  tablesSamplers : Bool
  dynamicBuffers : List BufferViewKind
deriving DecidableEq

/-- `super::PipelineLayout`: root-signature identity (`raw`),
per-group metadata, and the total root-element count. -/
structure PipelineLayout where
  raw : Nat
  bindGroupInfos : List BindGroupInfo
  totalRootElements : Nat
deriving DecidableEq

/-- `super::BindGroup`: GPU-visible table handles and dynamic-buffer
base addresses. -/
structure BindGroup where
  handleViews : Option Nat
  handleSamplers : Option Nat
  dynamicBuffers : List Nat
deriving DecidableEq

/-- `crate::BindingInvalidation`. -/
inductive BindingInvalidation where
  | All
  | DynamicOffsetsOnly
deriving DecidableEq

/-- The `match invalidation` stage of `set_bind_group`: under `All`,
write the group's present descriptor-table slots unconditionally
(`none` models the Rust panic of `.unwrap()` on a missing handle);
under `DynamicOffsetsOnly`, skip past the table slots.  Yields the
updated root-element table, the running root index, and
`base_update_index`. -/
def bindGroupTables (pass : Pass) (info : BindGroupInfo) (group : BindGroup) :
    BindingInvalidation → Option (List RootElement × Nat × Nat)
  | .All => do
    let (re1, ri1) ←
      if info.tablesViews then do
        let handle ← group.handleViews
        pure (pass.rootElements.set info.baseRootIndex (.Table handle),
          info.baseRootIndex + 1)
      else
        pure (pass.rootElements, info.baseRootIndex)
    let (re2, ri2) ←
      if info.tablesSamplers then do
        let handle ← group.handleSamplers
        pure (re1.set ri1 (.Table handle), ri1 + 1)
      else
        pure (re1, ri1)
    pure (re2, ri2, info.baseRootIndex)
  | .DynamicOffsetsOnly =>
    let skipped := info.baseRootIndex
      + (cond info.tablesViews 1 0) + (cond info.tablesSamplers 1 0)
    pure (pass.rootElements, skipped, skipped)

/-- `set_bind_group`.  Returns `none` on a Rust panic: an out-of-range
bind-group index (`layout.bind_group_infos[index]`) or a missing table
handle.  Otherwise returns the updated pass state and the emitted
native calls.  The three-way `zip` over declared dynamic-buffer kinds,
group base addresses, and caller-supplied offsets silently stops at the
shortest of the three. -/
def setBindGroup (pass : Pass) (layout : PipelineLayout) (index : Nat)
    (group : BindGroup) (dynamicOffsets : List Nat)
    (invalidation : BindingInvalidation) : Option (Pass × List NativeCall) := do
  let info ← layout.bindGroupInfos.get? index
  let (rootElements1, rootIndex1, baseUpdateIndex) ←
    bindGroupTables pass info group invalidation
  let triples := (info.dynamicBuffers.zip group.dynamicBuffers).zip dynamicOffsets
  let (rootElements2, rootIndex2) := triples.foldl
    (fun acc t =>
      (acc.1.set acc.2 (.DynamicOffsetBuffer t.1.1 (t.1.2 + t.2)), acc.2 + 1))
    (rootElements1, rootIndex1)
  let pass2 := { pass with rootElements := rootElements2 }
  let (pass3, updStart, updStop) :=
    if pass2.signature ≠ layout.raw then
      ({ pass2 with signature := layout.raw }, 0, layout.totalRootElements)
    else
      (pass2, baseUpdateIndex, rootIndex2)
  pure (pass3, updateRootElements pass3 updStart updStop)

/-- The pipeline fields consulted by `set_render_pipeline`
(`super::RenderPipeline`). -/
structure RenderPipeline where
  raw : Nat
  signature : Nat
  totalRootElements : Nat
  topology : Nat
  vertexStrides : List (Option Nat)
deriving DecidableEq

/-- The pipeline fields consulted by `set_compute_pipeline`
(`super::ComputePipeline`). -/
structure ComputePipeline where
  raw : Nat
  signature : Nat
  totalRootElements : Nat
deriving DecidableEq

/-- The stride-propagation loop at the end of `set_render_pipeline`:
walks `vertex_buffers` zipped with the pipeline's declared strides
(stopping at the shorter), updating each view whose declared stride
differs and marking its slot dirty. -/
def updateVertexStrides : List VertexBufferView → List (Option Nat) → Nat → Nat →
    List VertexBufferView × Nat
  | vb :: vbs, strideOpt :: strides, index, dirty =>
    let (vb2, dirty2) :=
      match strideOpt with
      | some stride =>
        if vb.strideInBytes ≠ stride then
          ({ vb with strideInBytes := stride }, dirty ||| (1 <<< index))
        else
          (vb, dirty)
      | none => (vb, dirty)
    let res := updateVertexStrides vbs strides (index + 1) dirty2
    (vb2 :: res.1, res.2)
  | vbs, [], _, dirty => (vbs, dirty)
  | [], _, _, dirty => ([], dirty)

/-- `set_render_pipeline`: on a root-signature identity change, set the
graphics root signature and re-emit the full root table; then set the
pipeline state and topology and propagate declared vertex strides into
the dirty mask. -/
def setRenderPipeline (pass : Pass) (pipeline : RenderPipeline) :
    Pass × List NativeCall :=
  let (pass1, sigCalls) :=
    if pass.signature ≠ pipeline.signature then
      let p := { pass with signature := pipeline.signature }
      (p, .setGraphicsRootSignatureCall pipeline.signature
        :: updateRootElements p 0 pipeline.totalRootElements)
    else
      (pass, [])
  let strideRes := updateVertexStrides pass1.vertexBuffers pipeline.vertexStrides 0
    pass1.dirtyVertexBuffers
  ({ pass1 with vertexBuffers := strideRes.1, dirtyVertexBuffers := strideRes.2 },
    sigCalls ++ [.setPipelineState pipeline.raw, .iaSetPrimitiveTopology pipeline.topology])

/-- `set_compute_pipeline`: on a root-signature identity change, set
the compute root signature and re-emit the full root table; then set
the pipeline state. -/
def setComputePipeline (pass : Pass) (pipeline : ComputePipeline) :
    Pass × List NativeCall :=
  let (pass1, sigCalls) :=
    if pass.signature ≠ pipeline.signature then
      let p := { pass with signature := pipeline.signature }
      (p, .setComputeRootSignatureCall pipeline.signature
        :: updateRootElements p 0 pipeline.totalRootElements)
    else
      (pass, [])
  (pass1, sigCalls ++ [.setPipelineState pipeline.raw])

/-! ## Vertex-buffer dirtiness and draws -/

/-- `u32::trailing_zeros` restricted to nonzero input: the index of the
lowest set bit. -/
def trailingZeros (n : Nat) : Nat :=
  if _h : n = 0 then 0
  else if n % 2 = 1 then 0
  else trailingZeros (n / 2) + 1
termination_by n
decreasing_by exact Nat.div_lt_self (Nat.pos_of_ne_zero _h) (by decide)

/-- The lowest set bit of a nonzero mask is set. -/
theorem testBit_trailingZeros : ∀ n : Nat, n ≠ 0 →
    n.testBit (trailingZeros n) = true := by
  intro n
  induction n using Nat.strong_induction_on with
  | _ n ih =>
    intro h
    rw [trailingZeros, dif_neg h]
    by_cases h1 : n % 2 = 1
    · rw [if_pos h1, Nat.testBit_zero]
      simp [h1]
    · rw [if_neg h1, Nat.testBit_succ]
      exact ih (n / 2) (Nat.div_lt_self (Nat.pos_of_ne_zero h) (by decide)) (by omega)

/-- Bits below the lowest set bit are clear. -/
theorem testBit_lt_trailingZeros : ∀ n i : Nat, i < trailingZeros n →
    n.testBit i = false := by
  intro n
  induction n using Nat.strong_induction_on with
  | _ n ih =>
    intro i h
    by_cases h0 : n = 0
    · subst h0; exact Nat.zero_testBit i
    rw [trailingZeros, dif_neg h0] at h
    by_cases h1 : n % 2 = 1
    · rw [if_pos h1] at h; omega
    · rw [if_neg h1] at h
      match i with
      | 0 =>
        rw [Nat.testBit_zero]
        simp [h1]
      | i + 1 =>
        rw [Nat.testBit_succ]
        exact ih (n / 2) (Nat.div_lt_self (Nat.pos_of_ne_zero h0) (by decide)) i (by omega)

/-- Clearing a set bit strictly decreases the mask (termination of the
`prepare_draw` flush loop). -/
theorem xor_bit_lt {n i : Nat} (h : n.testBit i = true) :
    n ^^^ (1 <<< i) < n := by
  have h2 : (1 <<< i) = 2 ^ i := by rw [Nat.shiftLeft_eq, Nat.one_mul]
  apply Nat.lt_of_testBit i
  · rw [Nat.testBit_xor, h, h2, Nat.testBit_two_pow_self]
    rfl
  · exact h
  · intro j hj
    rw [Nat.testBit_xor, h2, Nat.testBit_two_pow_of_ne (Nat.ne_of_lt hj)]
    cases n.testBit j <;> rfl

/-- `prepare_draw`: repeatedly pops the lowest dirty vertex-buffer
slot, emitting one `IASetVertexBuffers` call for that single slot, until
the dirty mask is empty. -/
def prepareDraw (pass : Pass) : Pass × List NativeCall :=
  if h : pass.dirtyVertexBuffers = 0 then
    (pass, [])
  else
    let index := trailingZeros pass.dirtyVertexBuffers
    let pass2 := { pass with
      dirtyVertexBuffers := pass.dirtyVertexBuffers ^^^ (1 <<< index) }
    let res := prepareDraw pass2
    (res.1, .iaSetVertexBuffers index (pass.vertexBuffers.getD index default) :: res.2)
termination_by pass.dirtyVertexBuffers
decreasing_by exact xor_bit_lt (testBit_trailingZeros pass.dirtyVertexBuffers h)

/-- `draw`: flush dirty vertex buffers, then the native draw. -/
def draw (pass : Pass) (startVertex vertexCount startInstance instanceCount : Nat) :
    Pass × List NativeCall :=
  let res := prepareDraw pass
  (res.1, res.2 ++ [.drawCall vertexCount instanceCount startVertex startInstance])

/-- `draw_indexed`: flush dirty vertex buffers, then the native
indexed draw. -/
def drawIndexed (pass : Pass) (startIndex indexCount : Nat) (baseVertex : Int)
    (startInstance instanceCount : Nat) : Pass × List NativeCall :=
  let res := prepareDraw pass
  (res.1, res.2 ++ [.drawIndexedCall indexCount instanceCount startIndex baseVertex startInstance])

/-- The three per-device command signatures
(`shared.cmd_signatures`). -/
structure CommandSignatures where
  draw : Nat
  drawIndexed : Nat
  dispatch : Nat
deriving DecidableEq

/-- `draw_indirect`. -/
def drawIndirect (pass : Pass) (sigs : CommandSignatures)
    (buffer offset drawCount : Nat) : Pass × List NativeCall :=
  let res := prepareDraw pass
  (res.1, res.2 ++ [.executeIndirect sigs.draw drawCount buffer offset none 0])

/-- `draw_indexed_indirect`. -/
def drawIndexedIndirect (pass : Pass) (sigs : CommandSignatures)
    (buffer offset drawCount : Nat) : Pass × List NativeCall :=
  let res := prepareDraw pass
  (res.1, res.2 ++ [.executeIndirect sigs.drawIndexed drawCount buffer offset none 0])

/-- `draw_indirect_count`. -/
def drawIndirectCount (pass : Pass) (sigs : CommandSignatures)
    (buffer offset countBuffer countOffset maxCount : Nat) : Pass × List NativeCall :=
  let res := prepareDraw pass
  (res.1, res.2 ++ [.executeIndirect sigs.draw maxCount buffer offset (some countBuffer) countOffset])

/-- `draw_indexed_indirect_count`. -/
def drawIndexedIndirectCount (pass : Pass) (sigs : CommandSignatures)
    (buffer offset countBuffer countOffset maxCount : Nat) : Pass × List NativeCall :=
  let res := prepareDraw pass
  (res.1, res.2 ++ [.executeIndirect sigs.drawIndexed maxCount buffer offset (some countBuffer) countOffset])

/-! ## `fill_buffer` -/

/-- Modelled from the spec: `super::ZERO_BUFFER_SIZE`, the fixed byte
size of the shared zero-initialized buffer (declared outside
`command.rs`); `fill_buffer` copies from it in chunks bounded by this
size. -/
def ZERO_BUFFER_SIZE : Nat := 256 * 1024

/-- A byte range `start..stop` (`crate::MemoryRange`; `stop` stands for
the Rust field `end`, a reserved word here). -/
structure MemoryRange where
  start : Nat
  stop : Nat
deriving DecidableEq

/-- The copy loop of `fill_buffer`: starting at `offset`, repeatedly
copy `min ZERO_BUFFER_SIZE (stop - offset)` bytes from the shared zero
buffer and advance, until the range is exhausted. -/
def fillLoop (buffer zeroBuffer offset stop : Nat) : List NativeCall :=
  if h : offset < stop then
    let size := ZERO_BUFFER_SIZE.min (stop - offset)
    .copyBufferRegion buffer offset zeroBuffer 0 size
      :: fillLoop buffer zeroBuffer (offset + size) stop
  else
    []
termination_by stop - offset
decreasing_by
  have hz : 0 < ZERO_BUFFER_SIZE := by decide
  have : 0 < ZERO_BUFFER_SIZE.min (stop - offset) := by
    rw [Nat.lt_min]; omega
  omega

/-- `fill_buffer`: `assert_eq!(value, 0)` panics (`none`) on any
non-zero fill value; otherwise issues the chunked zero copies. -/
def fillBuffer (buffer zeroBuffer : Nat) (range : MemoryRange) (value : Nat) :
    Option (List NativeCall) :=
  if value = 0 then
    some (fillLoop buffer zeroBuffer range.start range.stop)
  else
    none

/-! ## Render pass end (`end_render_pass`) and pass teardown -/

/-- Swapping `StateBefore`/`StateAfter` of a transition barrier (the
in-place flip loop of `end_render_pass`). -/
def swapTransition (t : TransitionData) : TransitionData :=
  { t with stateBefore := t.stateAfter, stateAfter := t.stateBefore }

/-- `swapTransition` lifted to barrier descriptors (only transition
barriers appear in the resolve list). -/
def swapBarrier : Barrier → Barrier
  | .transition t => .transition (swapTransition t)
  | .uav r => .uav r

/-- The barriers accumulated before resolving: for each recorded
resolve, one transition of the source to `RESOLVE_SOURCE` and one of
the destination to `RESOLVE_DEST`, both from `RENDER_TARGET`. -/
def resolveBarriers (resolves : List PassResolve) : List Barrier :=
  resolves.flatMap fun r =>
    [.transition ⟨r.src.1, r.src.2, STATE_RENDER_TARGET, STATE_RESOLVE_SOURCE⟩,
     .transition ⟨r.dst.1, r.dst.2, STATE_RENDER_TARGET, STATE_RESOLVE_DEST⟩]

/-- `end_pass`: unbind the descriptor heaps, close the label scope if
one was opened, and reset all pass-local state. -/
def endPass (pass : Pass) : Pass × List NativeCall :=
  (Pass.clear, .setDescriptorHeaps [] :: (if pass.hasLabel then [.endEvent] else []))

/-- `end_render_pass`: if any resolves were recorded, batch-flush the
transition barriers into resolve states, issue one
`ResolveSubresource` per recorded pair, then batch-flush the same
barriers with before/after swapped; finally tear the pass down. -/
def endRenderPass (pass : Pass) : Pass × List NativeCall :=
  let resolveCalls :=
    if pass.resolves.isEmpty then
      []
    else
      let pre := resolveBarriers pass.resolves
      NativeCall.resourceBarrier pre
        :: pass.resolves.map (fun r => .resolveSubresource r.dst.1 r.dst.2 r.src.1 r.src.2 r.format)
        ++ [.resourceBarrier (pre.map swapBarrier)]
  let res := endPass pass
  (res.1, resolveCalls ++ res.2)

/-! ## Encoder lifecycle -/

/-- `super::CommandBuffer`: the closed, submittable list handle. -/
structure CommandBuffer where
  raw : Nat
deriving DecidableEq

/-- The encoder state relevant to the lifecycle entry points: the
optional open list handle, the free-list pool of reusable handles
(a stack: `Vec::push`/`Vec::pop`, modelled at the head), the device's
supply of fresh handles, the scratch barrier list, and the pass
state. -/
structure EncoderState where
  list : Option Nat
  freeLists : List Nat
  nextHandle : Nat
  tempBarriers : List Barrier
  pass : Pass
deriving DecidableEq

/-- Native list-object lifecycle events. -/
inductive ListEvent where
  | create (handle : Nat)
  | reset (handle : Nat)
  | close (handle : Nat)
deriving DecidableEq

/-- `begin_encoding`: pop a reusable handle from the pool and reset it,
or create a fresh list object; clear the scratch and pass state and
mark the list open.  (List-object creation failure, the one
recoverable error, is outside the verified properties; creation is
modelled as drawing a fresh handle.) -/
def beginEncoding (s : EncoderState) : EncoderState × List ListEvent :=
  match s.freeLists with
  | handle :: rest =>
    let s2 : EncoderState :=
      { s with
        list := some handle
        freeLists := rest
        tempBarriers := []
        pass := Pass.clear }
    (s2, [.reset handle])
  | [] =>
    let s2 : EncoderState :=
      { s with
        list := some s.nextHandle
        nextHandle := s.nextHandle + 1
        tempBarriers := []
        pass := Pass.clear }
    (s2, [.create s.nextHandle])

/-- `discard_encoding`: if a list is open, close it and return its
handle to the pool; otherwise do nothing. -/
def discardEncoding (s : EncoderState) : EncoderState × List ListEvent :=
  match s.list with
  | some handle =>
    ({ s with list := none, freeLists := handle :: s.freeLists }, [.close handle])
  | none => (s, [])

/-- `end_encoding`: `self.list.take().unwrap()` panics (`none`) when no
list is open; otherwise closes the list and hands it to the caller as a
command buffer. -/
def endEncoding (s : EncoderState) : Option (EncoderState × List ListEvent × CommandBuffer) :=
  match s.list with
  | some handle => some ({ s with list := none }, [.close handle], ⟨handle⟩)
  | none => none

/-- `reset_all`: return the handles of previously submitted command
buffers to the free-list pool. -/
def resetAll (s : EncoderState) (commandBuffers : List CommandBuffer) : EncoderState :=
  { s with freeLists := commandBuffers.foldl (fun pool cb => cb.raw :: pool) s.freeLists }

/-! ## Derived characterisations used by the statements -/

/-- The root-parameter index named by a root-element binding call;
`none` for any native call that is not a root-element binding. -/
def rootCallIndex : NativeCall → Option Nat
  | .setGraphicsRootDescriptorTable index _ => some index
  | .setComputeRootDescriptorTable index _ => some index
  | .setGraphicsRootConstantBufferView index _ => some index
  | .setComputeRootConstantBufferView index _ => some index
  | .setGraphicsRootShaderResourceView index _ => some index
  | .setComputeRootShaderResourceView index _ => some index
  | .setGraphicsRootUnorderedAccessView index _ => some index
  | .setComputeRootUnorderedAccessView index _ => some index
  | _ => none

/-- How many descriptor-table root slots a bind group occupies
(`info.tables.bits().count_ones()`). -/
def BindGroupInfo.tableCount (info : BindGroupInfo) : Nat :=
  (cond info.tablesViews 1 0) + (cond info.tablesSamplers 1 0)

/-- The root-slot range a `set_bind_group` call touches: under `All`
invalidation, from the group's base slot; under `DynamicOffsetsOnly`,
from just past the table slots; in both cases up to the last
dynamic-offset slot actually written (the three-way zip stops at the
shortest input). -/
def touchedSlots (info : BindGroupInfo) (group : BindGroup)
    (dynamicOffsets : List Nat) (invalidation : BindingInvalidation) : Nat × Nat :=
  let stop := info.baseRootIndex + info.tableCount
    + Nat.min (Nat.min info.dynamicBuffers.length group.dynamicBuffers.length)
        dynamicOffsets.length
  match invalidation with
  | .All => (info.baseRootIndex, stop)
  | .DynamicOffsetsOnly => (info.baseRootIndex + info.tableCount, stop)

/-! # Claim theorems -/

/-- For non-transfer passes, a root-element emission carries its slot
index exactly when the slot is non-empty. -/
theorem emit_bind_rootCallIndex {kind : PassKind} (h : kind ≠ PassKind.Transfer)
    (i : Nat) (e : RootElement) :
    (emitRootElement kind i e).bind rootCallIndex
      = if e = .Empty then none else some i := by
  cases e with
  | Empty => rfl
  | Table d =>
    cases kind with
    | Render => rfl
    | Compute => rfl
    | Transfer => exact absurd rfl h
  | DynamicOffsetBuffer k a =>
    cases kind with
    | Render => cases k <;> rfl
    | Compute => cases k <;> rfl
    | Transfer => exact absurd rfl h

/-- The slots re-emitted by `update_root_elements` over a range are
exactly the non-empty slots of that range, in order. -/
theorem updateRootElements_indices (pass : Pass)
    (h : pass.kind ≠ PassKind.Transfer) (start stop : Nat) :
    (updateRootElements pass start stop).filterMap rootCallIndex
      = (List.range' start (stop - start)).filter
          fun i => pass.rootElements.getD i .Empty ≠ .Empty := by
  unfold updateRootElements
  rw [List.filterMap_filterMap]
  generalize List.range' start (stop - start) = l
  induction l with
  | nil => rfl
  | cons a t ih =>
    rw [List.filterMap_cons, emit_bind_rootCallIndex h]
    by_cases he : pass.rootElements.getD a .Empty = .Empty
    · rw [if_pos he, List.filter_cons]
      have hd : (decide (pass.rootElements.getD a RootElement.Empty ≠ RootElement.Empty)) = false :=
        decide_eq_false (fun hn => hn he)
      rw [hd]
      simpa using ih
    · rw [if_neg he, List.filter_cons]
      have hd : (decide (pass.rootElements.getD a RootElement.Empty ≠ RootElement.Empty)) = true :=
        decide_eq_true he
      rw [hd]
      simpa using ih

/-- Both invalidation modes touch slots up to the same stop index. -/
theorem touchedSlots_snd (info : BindGroupInfo) (group : BindGroup)
    (dynamicOffsets : List Nat) (invalidation : BindingInvalidation) :
    (touchedSlots info group dynamicOffsets invalidation).2
      = info.baseRootIndex + info.tableCount
        + Nat.min (Nat.min info.dynamicBuffers.length group.dynamicBuffers.length)
            dynamicOffsets.length := by
  cases invalidation <;> rfl

/-- When the table stage succeeds, the running root index sits past the
group's table slots and `base_update_index` is the start of the touched
range. -/
theorem bindGroupTables_spec (pass : Pass) (info : BindGroupInfo)
    (group : BindGroup) (invalidation : BindingInvalidation)
    (dynamicOffsets : List Nat)
    (re1 : List RootElement) (ri1 bu : Nat)
    (h : bindGroupTables pass info group invalidation = some (re1, ri1, bu)) :
    ri1 = info.baseRootIndex + info.tableCount
      ∧ bu = (touchedSlots info group dynamicOffsets invalidation).1 := by
  cases invalidation with
  | All =>
    unfold bindGroupTables at h
    cases hv : info.tablesViews <;> cases hs : info.tablesSamplers <;>
      rw [hv, hs] at h
    · simp only [Bool.false_eq_true, if_false, Option.pure_def, Option.bind_eq_bind,
        Option.some_bind, Option.some.injEq, Prod.mk.injEq] at h
      obtain ⟨-, h2, h3⟩ := h
      subst h2; subst h3
      simp [BindGroupInfo.tableCount, touchedSlots, hv, hs]
    · cases ghs : group.handleSamplers with
      | none =>
        rw [ghs] at h
        simp at h
      | some hsm =>
        rw [ghs] at h
        simp only [Bool.false_eq_true, if_false, if_true, Option.pure_def,
          Option.bind_eq_bind, Option.some_bind, Option.some.injEq, Prod.mk.injEq] at h
        obtain ⟨-, h2, h3⟩ := h
        subst h2; subst h3
        simp [BindGroupInfo.tableCount, touchedSlots, hv, hs]
    · cases ghv : group.handleViews with
      | none =>
        rw [ghv] at h
        simp at h
      | some hvw =>
        rw [ghv] at h
        simp only [Bool.false_eq_true, if_false, if_true, Option.pure_def,
          Option.bind_eq_bind, Option.some_bind, Option.some.injEq, Prod.mk.injEq] at h
        obtain ⟨-, h2, h3⟩ := h
        subst h2; subst h3
        simp [BindGroupInfo.tableCount, touchedSlots, hv, hs]
    · cases ghv : group.handleViews with
      | none =>
        rw [ghv] at h
        simp at h
      | some hvw =>
        rw [ghv] at h
        cases ghs : group.handleSamplers with
        | none =>
          rw [ghs] at h
          simp at h
        | some hsm =>
          rw [ghs] at h
          simp only [if_true, Option.pure_def, Option.bind_eq_bind, Option.some_bind,
            Option.some.injEq, Prod.mk.injEq] at h
          obtain ⟨-, h2, h3⟩ := h
          subst h2; subst h3
          simp [BindGroupInfo.tableCount, touchedSlots, hv, hs]
  | DynamicOffsetsOnly =>
    unfold bindGroupTables at h
    simp only [Option.pure_def, Option.some.injEq, Prod.mk.injEq] at h
    obtain ⟨-, h2, h3⟩ := h
    subst h2; subst h3
    simp [BindGroupInfo.tableCount, touchedSlots]
    omega

/-- The running root index after the dynamic-offset binding loop
advances by one per zipped triple. -/
theorem dynamic_fold_index (l : List ((BufferViewKind × Nat) × Nat)) :
    ∀ (re : List RootElement) (i : Nat),
    (l.foldl (fun acc t =>
        (acc.1.set acc.2 (RootElement.DynamicOffsetBuffer t.1.1 (t.1.2 + t.2)),
          acc.2 + 1)) (re, i)).2 = i + l.length := by
  induction l with
  | nil => intro re i; simp
  | cons a t ih =>
    intro re i
    rw [List.foldl_cons, ih]
    simp
    omega

/-- `set_bind_group` re-emits root elements over `0..total_root_elements`
when the recorded signature identity differs from the layout's, and
over exactly the touched slot range otherwise. -/
theorem setBindGroup_flush_range (pass : Pass) (layout : PipelineLayout)
    (index : Nat) (group : BindGroup) (dynamicOffsets : List Nat)
    (invalidation : BindingInvalidation) (info : BindGroupInfo)
    (p2 : Pass) (calls : List NativeCall)
    (hget : layout.bindGroupInfos.get? index = some info)
    (hres : setBindGroup pass layout index group dynamicOffsets invalidation
      = some (p2, calls)) :
    p2.kind = pass.kind
    ∧ ((pass.signature ≠ layout.raw
        ∧ calls = updateRootElements p2 0 layout.totalRootElements)
      ∨ (pass.signature = layout.raw
        ∧ calls = updateRootElements p2
            (touchedSlots info group dynamicOffsets invalidation).1
            (touchedSlots info group dynamicOffsets invalidation).2)) := by
  unfold setBindGroup at hres
  rw [hget] at hres
  simp only [Option.bind_eq_bind, Option.some_bind] at hres
  rcases htab : bindGroupTables pass info group invalidation with _ | ⟨⟨re1, ri1, bu⟩⟩
  · rw [htab] at hres
    simp at hres
  rw [htab] at hres
  simp only [Option.some_bind] at hres
  obtain ⟨hri, hbu⟩ := bindGroupTables_spec pass info group invalidation
    dynamicOffsets re1 ri1 bu htab
  rcases hF : ((info.dynamicBuffers.zip group.dynamicBuffers).zip dynamicOffsets).foldl
      (fun acc t =>
        (acc.1.set acc.2 (RootElement.DynamicOffsetBuffer t.1.1 (t.1.2 + t.2)),
          acc.2 + 1)) (re1, ri1) with ⟨re2, ri2⟩
  rw [hF] at hres
  have hri2 : ri2
      = ri1 + ((info.dynamicBuffers.zip group.dynamicBuffers).zip dynamicOffsets).length := by
    have := congrArg Prod.snd hF
    rw [dynamic_fold_index] at this
    exact this.symm
  split at hres
  · rename_i hcond
    simp only [Option.pure_def, Option.some.injEq, Prod.mk.injEq] at hres
    obtain ⟨hp, hc⟩ := hres
    subst hp
    refine ⟨rfl, Or.inl ⟨?_, hc.symm⟩⟩
    simpa using hcond
  · rename_i hcond
    simp only [Option.pure_def, Option.some.injEq, Prod.mk.injEq] at hres
    obtain ⟨hp, hc⟩ := hres
    subst hp
    have hsig : pass.signature = layout.raw := by simpa using hcond
    have ht2 : (touchedSlots info group dynamicOffsets invalidation).2 = ri2 := by
      rw [touchedSlots_snd, hri2, hri]
      simp [List.length_zip]
    refine ⟨rfl, Or.inr ⟨hsig, ?_⟩⟩
    rw [hbu] at hc
    rw [ht2]
    exact hc.symm


/-- C3: after a `set_bind_group` or pipeline-set call whose
pipeline-layout root-signature identity differs from the recorded pass
signature, every non-empty root slot in `0..total_root_elements` is
re-emitted to the native list; with an unchanged identity, only the
slot range touched by that call is re-emitted (for pipeline-set calls,
no root slot at all). -/
theorem signature_change_full_flush (pass : Pass) (layout : PipelineLayout)
    (index : Nat) (group : BindGroup) (dynamicOffsets : List Nat)
    (invalidation : BindingInvalidation) (info : BindGroupInfo)
    (p2 : Pass) (calls : List NativeCall)
    (rp : RenderPipeline) (cp : ComputePipeline)
    (hkind : pass.kind ≠ PassKind.Transfer)
    (hget : layout.bindGroupInfos.get? index = some info)
    (hres : setBindGroup pass layout index group dynamicOffsets invalidation
      = some (p2, calls)) :
    (pass.signature ≠ layout.raw →
      calls.filterMap rootCallIndex
        = (List.range' 0 layout.totalRootElements).filter
            fun i => p2.rootElements.getD i .Empty ≠ .Empty)
    ∧ (pass.signature = layout.raw →
      calls.filterMap rootCallIndex
        = (List.range' (touchedSlots info group dynamicOffsets invalidation).1
            ((touchedSlots info group dynamicOffsets invalidation).2
              - (touchedSlots info group dynamicOffsets invalidation).1)).filter
            fun i => p2.rootElements.getD i .Empty ≠ .Empty)
    ∧ (pass.signature ≠ rp.signature →
      ((setRenderPipeline pass rp).2).filterMap rootCallIndex
        = (List.range' 0 rp.totalRootElements).filter
            fun i => pass.rootElements.getD i .Empty ≠ .Empty)
    ∧ (pass.signature = rp.signature →
      ((setRenderPipeline pass rp).2).filterMap rootCallIndex = [])
    ∧ (pass.signature ≠ cp.signature →
      ((setComputePipeline pass cp).2).filterMap rootCallIndex
        = (List.range' 0 cp.totalRootElements).filter
            fun i => pass.rootElements.getD i .Empty ≠ .Empty)
    ∧ (pass.signature = cp.signature →
      ((setComputePipeline pass cp).2).filterMap rootCallIndex = []) := by
  obtain ⟨hkind2, hcase⟩ := setBindGroup_flush_range pass layout index group
    dynamicOffsets invalidation info p2 calls hget hres
  have hkindp2 : p2.kind ≠ PassKind.Transfer := by rw [hkind2]; exact hkind
  have hkindr : ({ pass with signature := rp.signature } : Pass).kind
      ≠ PassKind.Transfer := hkind
  have hkindc : ({ pass with signature := cp.signature } : Pass).kind
      ≠ PassKind.Transfer := hkind
  refine ⟨?_, ?_, ?_, ?_, ?_, ?_⟩
  · intro hsig
    rcases hcase with ⟨-, hc⟩ | ⟨heq, -⟩
    · rw [hc, updateRootElements_indices p2 hkindp2]
      rw [Nat.sub_zero]
    · exact absurd heq hsig
  · intro hsig
    rcases hcase with ⟨hne, -⟩ | ⟨-, hc⟩
    · exact absurd hsig hne
    · rw [hc, updateRootElements_indices p2 hkindp2]
  · intro hsig
    have h2 : (setRenderPipeline pass rp).2
        = NativeCall.setGraphicsRootSignatureCall rp.signature
            :: updateRootElements { pass with signature := rp.signature }
                0 rp.totalRootElements
          ++ [.setPipelineState rp.raw, .iaSetPrimitiveTopology rp.topology] := by
      unfold setRenderPipeline
      rw [if_pos hsig]
    rw [h2, List.filterMap_append, List.filterMap_cons]
    have hn : rootCallIndex (.setGraphicsRootSignatureCall rp.signature) = none := rfl
    rw [hn, updateRootElements_indices _ hkindr, Nat.sub_zero]
    simp [rootCallIndex]
  · intro hsig
    have h2 : (setRenderPipeline pass rp).2
        = [.setPipelineState rp.raw, .iaSetPrimitiveTopology rp.topology] := by
      unfold setRenderPipeline
      rw [if_neg (by simpa using hsig)]
      rfl
    rw [h2]
    rfl
  · intro hsig
    have h2 : (setComputePipeline pass cp).2
        = NativeCall.setComputeRootSignatureCall cp.signature
            :: updateRootElements { pass with signature := cp.signature }
                0 cp.totalRootElements
          ++ [.setPipelineState cp.raw] := by
      unfold setComputePipeline
      rw [if_pos hsig]
    rw [h2, List.filterMap_append, List.filterMap_cons]
    have hn : rootCallIndex (.setComputeRootSignatureCall cp.signature) = none := rfl
    rw [hn, updateRootElements_indices _ hkindc, Nat.sub_zero]
    simp [rootCallIndex]
  · intro hsig
    have h2 : (setComputePipeline pass cp).2 = [.setPipelineState cp.raw] := by
      unfold setComputePipeline
      rw [if_neg (by simpa using hsig)]
      rfl
    rw [h2]
    rfl

/-- Concrete pass for the C3 witness: a cleared render pass. -/
def passW : Pass := { Pass.clear with kind := .Render }

/-- Concrete bind-group metadata for the C3 witness: one views table,
no sampler table, one constant dynamic buffer. -/
def infoW : BindGroupInfo := ⟨0, true, false, [.Constant]⟩

/-- Concrete pipeline layout for the C3 witness. -/
def layoutW : PipelineLayout := ⟨5, [infoW], 2⟩

/-- Concrete bind group for the C3 witness. -/
def groupW : BindGroup := ⟨some 11, none, [100]⟩

/-- The pass state `setBindGroup` produces for the C3 witness. -/
def passW2 : Pass where
  kind := .Render
  signature := 5
  rootElements := ((List.replicate MAX_ROOT_ELEMENTS RootElement.Empty).set 0
    (.Table 11)).set 1 (.DynamicOffsetBuffer .Constant 104)
  dirtyVertexBuffers := 0
  vertexBuffers := List.replicate MAX_VERTEX_BUFFERS default
  resolves := []
  hasLabel := false

/-- Witness for `signature_change_full_flush`: on a fresh render pass
(null signature) a bind-group call against a layout with signature 5
re-emits both non-empty root slots. -/
theorem signature_change_full_flush_witness :
    ([NativeCall.setGraphicsRootDescriptorTable 0 11,
      NativeCall.setGraphicsRootConstantBufferView 1 104].filterMap rootCallIndex)
      = (List.range' 0 2).filter
          (fun i => passW2.rootElements.getD i RootElement.Empty ≠ RootElement.Empty) := by
  have h := signature_change_full_flush passW layoutW 0 groupW [4]
    BindingInvalidation.All infoW passW2
    [NativeCall.setGraphicsRootDescriptorTable 0 11,
     NativeCall.setGraphicsRootConstantBufferView 1 104]
    ⟨0, 0, 0, 0, []⟩ ⟨0, 0, 0⟩ (by decide) (by decide) (by decide)
  exact h.1 (by decide)

/-- The vertex-buffer slot named by an `IASetVertexBuffers` call
(0 for any other call; used only to compare flush calls). -/
def vbSlot : NativeCall → Nat
  | .iaSetVertexBuffers index _ => index
  | _ => 0

/-- Clearing the lowest set bit: bit `trailingZeros n` becomes clear,
every other bit is unchanged. -/
theorem testBit_clear_low (n : Nat) (hn : n ≠ 0) (j : Nat) :
    (n ^^^ (1 <<< trailingZeros n)).testBit j
      = if j = trailingZeros n then false else n.testBit j := by
  have h2 : (1 <<< trailingZeros n) = 2 ^ trailingZeros n := by
    rw [Nat.shiftLeft_eq, Nat.one_mul]
  rw [Nat.testBit_xor, h2]
  by_cases hj : j = trailingZeros n
  · subst hj
    rw [if_pos rfl, Nat.testBit_two_pow_self, testBit_trailingZeros n hn]
    rfl
  · rw [if_neg hj, Nat.testBit_two_pow_of_ne (fun h => hj h.symm)]
    cases n.testBit j <;> rfl

/-- The flush loop of `prepare_draw`: the final dirty mask is zero and
nothing else of the pass changes; the emitted calls are exactly one
`IASetVertexBuffers` per set bit of the dirty mask, at that bit's slot
index, in strictly increasing slot order. -/
theorem prepareDraw_props : ∀ (n : Nat) (p : Pass), p.dirtyVertexBuffers = n →
    (prepareDraw p).1 = { p with dirtyVertexBuffers := 0 }
    ∧ (∀ c ∈ (prepareDraw p).2, ∃ i,
        c = .iaSetVertexBuffers i (p.vertexBuffers.getD i default)
          ∧ p.dirtyVertexBuffers.testBit i = true)
    ∧ (∀ i : Nat, p.dirtyVertexBuffers.testBit i = true →
        NativeCall.iaSetVertexBuffers i (p.vertexBuffers.getD i default)
          ∈ (prepareDraw p).2)
    ∧ (prepareDraw p).2.Pairwise (fun c1 c2 => vbSlot c1 < vbSlot c2) := by
  intro n
  induction n using Nat.strong_induction_on with
  | _ n ih =>
    intro p hp
    by_cases h0 : p.dirtyVertexBuffers = 0
    · rw [prepareDraw, dif_pos h0]
      refine ⟨?_, ?_, ?_, ?_⟩
      · cases p
        simp_all
      · intro c hc
        exact absurd hc (List.not_mem_nil c)
      · intro i hi
        rw [h0, Nat.zero_testBit] at hi
        exact absurd hi (by simp)
      · exact List.Pairwise.nil
    · rw [prepareDraw, dif_neg h0]
      have hbit := testBit_clear_low p.dirtyVertexBuffers h0
      have hlow := testBit_trailingZeros p.dirtyVertexBuffers h0
      have hlt : (p.dirtyVertexBuffers ^^^ (1 <<< trailingZeros p.dirtyVertexBuffers)) < n :=
        hp ▸ xor_bit_lt hlow
      obtain ⟨ihA, ihB, ihC, ihD⟩ := ih _ hlt
        { p with dirtyVertexBuffers :=
            p.dirtyVertexBuffers ^^^ (1 <<< trailingZeros p.dirtyVertexBuffers) } rfl
      refine ⟨ihA, ?_, ?_, ?_⟩
      · intro c hc
        rw [List.mem_cons] at hc
        rcases hc with hc | hc
        · subst hc
          exact ⟨trailingZeros p.dirtyVertexBuffers, rfl, hlow⟩
        · obtain ⟨i, hci, hbi⟩ := ihB c hc
          rw [hbit i] at hbi
          refine ⟨i, hci, ?_⟩
          by_cases hit : i = trailingZeros p.dirtyVertexBuffers
          · rw [if_pos hit] at hbi
            exact absurd hbi (by simp)
          · rwa [if_neg hit] at hbi
      · intro i hi
        by_cases hit : i = trailingZeros p.dirtyVertexBuffers
        · subst hit
          exact List.mem_cons_self _ _
        · refine List.mem_cons_of_mem _ (ihC i ?_)
          rw [hbit i, if_neg hit]
          exact hi
      · refine List.Pairwise.cons ?_ ihD
        intro c hc
        obtain ⟨i, hci, hbi⟩ := ihB c hc
        rw [hbit i] at hbi
        by_cases hit : i = trailingZeros p.dirtyVertexBuffers
        · rw [if_pos hit] at hbi
          exact absurd hbi (by simp)
        · rw [if_neg hit] at hbi
          have hgt : trailingZeros p.dirtyVertexBuffers < i := by
            rcases Nat.lt_trichotomy i (trailingZeros p.dirtyVertexBuffers) with h | h | h
            · rw [testBit_lt_trailingZeros p.dirtyVertexBuffers i h] at hbi
              exact absurd hbi (by simp)
            · exact absurd h hit
            · exact h
          rw [hci]
          simpa [vbSlot] using hgt

/-- C5: `prepare_draw` binds exactly one native vertex-buffer-view slot
per set bit of the dirty mask (at that bit's index, in increasing
order) and leaves the dirty mask zero, all other pass state unchanged;
every draw entry point (direct, indexed, indirect and
indirect-with-count variants) invokes it immediately before its native
draw call. -/
theorem prepare_draw_flushes_dirty (p : Pass) (sigs : CommandSignatures)
    (a b c d e : Nat) (bv : Int) :
    (prepareDraw p).1 = { p with dirtyVertexBuffers := 0 }
    ∧ (∀ call ∈ (prepareDraw p).2, ∃ i,
        call = .iaSetVertexBuffers i (p.vertexBuffers.getD i default)
          ∧ p.dirtyVertexBuffers.testBit i = true)
    ∧ (∀ i : Nat, p.dirtyVertexBuffers.testBit i = true →
        NativeCall.iaSetVertexBuffers i (p.vertexBuffers.getD i default)
          ∈ (prepareDraw p).2)
    ∧ (prepareDraw p).2.Pairwise (fun c1 c2 => vbSlot c1 < vbSlot c2)
    ∧ draw p a b c d
        = ((prepareDraw p).1, (prepareDraw p).2 ++ [.drawCall b d a c])
    ∧ drawIndexed p a b bv c d
        = ((prepareDraw p).1, (prepareDraw p).2 ++ [.drawIndexedCall b d a bv c])
    ∧ drawIndirect p sigs a b c
        = ((prepareDraw p).1, (prepareDraw p).2
            ++ [.executeIndirect sigs.draw c a b none 0])
    ∧ drawIndexedIndirect p sigs a b c
        = ((prepareDraw p).1, (prepareDraw p).2
            ++ [.executeIndirect sigs.drawIndexed c a b none 0])
    ∧ drawIndirectCount p sigs a b c d e
        = ((prepareDraw p).1, (prepareDraw p).2
            ++ [.executeIndirect sigs.draw e a b (some c) d])
    ∧ drawIndexedIndirectCount p sigs a b c d e
        = ((prepareDraw p).1, (prepareDraw p).2
            ++ [.executeIndirect sigs.drawIndexed e a b (some c) d]) := by
  obtain ⟨hA, hB, hC, hD⟩ := prepareDraw_props p.dirtyVertexBuffers p rfl
  exact ⟨hA, hB, hC, hD, rfl, rfl, rfl, rfl, rfl, rfl⟩

/-- C4: `end_render_pass` with `K > 0` recorded resolves flushes `2·K`
transition barriers (source to resolve-source and destination to
resolve-destination, both from render-target state) as one batched
native call before the `K` resolve operations, then the same barriers
with before/after swapped as a second batched call, so every resolve
attachment ends back in its render-target pre-state. -/
theorem render_pass_resolve_barriers (pass : Pass) (K : Nat)
    (hK : pass.resolves.length = K) (hpos : 0 < K) :
    (endRenderPass pass).2
      = (NativeCall.resourceBarrier (resolveBarriers pass.resolves)
          :: pass.resolves.map (fun r =>
              .resolveSubresource r.dst.1 r.dst.2 r.src.1 r.src.2 r.format)
          ++ [.resourceBarrier ((resolveBarriers pass.resolves).map swapBarrier)])
        ++ (endPass pass).2
    ∧ (resolveBarriers pass.resolves).length = 2 * K
    ∧ ((resolveBarriers pass.resolves).map swapBarrier).length = 2 * K
    ∧ (∀ b ∈ resolveBarriers pass.resolves,
        ∃ t, b = .transition t ∧ t.stateBefore = STATE_RENDER_TARGET)
    ∧ (∀ t, Barrier.transition t ∈ resolveBarriers pass.resolves →
        Barrier.transition (swapTransition t)
          ∈ (resolveBarriers pass.resolves).map swapBarrier)
    ∧ (∀ b ∈ (resolveBarriers pass.resolves).map swapBarrier,
        ∃ t, b = .transition t ∧ t.stateAfter = STATE_RENDER_TARGET)
    ∧ (∀ r ∈ pass.resolves,
        Barrier.transition ⟨r.src.1, r.src.2, STATE_RENDER_TARGET, STATE_RESOLVE_SOURCE⟩
            ∈ resolveBarriers pass.resolves
          ∧ Barrier.transition ⟨r.dst.1, r.dst.2, STATE_RENDER_TARGET, STATE_RESOLVE_DEST⟩
            ∈ resolveBarriers pass.resolves) := by
  have hne : ¬(pass.resolves.isEmpty = true) := by
    rw [List.isEmpty_iff]
    intro hnil
    rw [hnil] at hK
    simp at hK
    omega
  have hmem : ∀ b ∈ resolveBarriers pass.resolves,
      ∃ t, b = .transition t ∧ t.stateBefore = STATE_RENDER_TARGET := by
    intro b hb
    rw [resolveBarriers, List.mem_flatMap] at hb
    obtain ⟨r, -, hb⟩ := hb
    rw [List.mem_cons, List.mem_cons] at hb
    rcases hb with hb | hb | hb
    · exact ⟨_, hb, rfl⟩
    · exact ⟨_, hb, rfl⟩
    · exact absurd hb (List.not_mem_nil b)
  refine ⟨?_, ?_, ?_, hmem, ?_, ?_, ?_⟩
  · unfold endRenderPass
    rw [if_neg hne]
  · rw [resolveBarriers, List.length_flatMap]
    simp only [Function.comp_def, List.length_cons, List.length_nil,
      List.map_const']
    rw [List.sum_replicate, smul_eq_mul, hK]
    omega
  · rw [List.length_map, resolveBarriers, List.length_flatMap]
    simp only [Function.comp_def, List.length_cons, List.length_nil,
      List.map_const']
    rw [List.sum_replicate, smul_eq_mul, hK]
    omega
  · intro t ht
    exact List.mem_map_of_mem swapBarrier ht
  · intro b hb
    rw [List.mem_map] at hb
    obtain ⟨a, ha, hab⟩ := hb
    obtain ⟨t, hat, hrt⟩ := hmem a ha
    subst hat
    exact ⟨swapTransition t, hab.symm, by rw [swapTransition]; exact hrt⟩
  · intro r hr
    constructor
    · rw [resolveBarriers, List.mem_flatMap]
      exact ⟨r, hr, by simp⟩
    · rw [resolveBarriers, List.mem_flatMap]
      exact ⟨r, hr, by simp⟩

/-- Witness for `render_pass_resolve_barriers`: one recorded resolve
yields the two-barrier batch, the resolve, and the swapped two-barrier
batch. -/
theorem render_pass_resolve_barriers_witness :
    (endRenderPass { Pass.clear with resolves := [⟨(1, 0), (2, 0), 7⟩] }).2
      = [.resourceBarrier
            [.transition ⟨1, 0, STATE_RENDER_TARGET, STATE_RESOLVE_SOURCE⟩,
             .transition ⟨2, 0, STATE_RENDER_TARGET, STATE_RESOLVE_DEST⟩],
         .resolveSubresource 2 0 1 0 7,
         .resourceBarrier
            [.transition ⟨1, 0, STATE_RESOLVE_SOURCE, STATE_RENDER_TARGET⟩,
             .transition ⟨2, 0, STATE_RESOLVE_DEST, STATE_RENDER_TARGET⟩],
         .setDescriptorHeaps []] := by
  have h := render_pass_resolve_barriers
    { Pass.clear with resolves := [⟨(1, 0), (2, 0), 7⟩] } 1 rfl (by decide)
  rw [h.1]
  decide

/-- A call list partitions the byte range `a..b` exactly: it is a
sequence of copy calls at strictly consecutive offsets whose sizes sum
to the range, with no gaps, overlaps, or bytes outside it. -/
def coversExactly : List NativeCall → Nat → Nat → Prop
  | [], a, b => a = b
  | .copyBufferRegion _ off _ _ size :: rest, a, b =>
    off = a ∧ 0 < size ∧ coversExactly rest (a + size) b
  | _ :: _, _, _ => False

/-- The chunked copy loop of `fill_buffer`: the emitted copies
partition `offset..stop` exactly and each is
`min ZERO_BUFFER_SIZE remaining` bytes; their count is
`ceil((stop - offset) / ZERO_BUFFER_SIZE)`. -/
theorem fillLoop_props (buffer zeroBuffer : Nat) :
    ∀ (n offset stop : Nat), stop - offset = n →
    (offset ≤ stop → coversExactly (fillLoop buffer zeroBuffer offset stop) offset stop)
    ∧ (fillLoop buffer zeroBuffer offset stop).length
        = ((stop - offset) + ZERO_BUFFER_SIZE - 1) / ZERO_BUFFER_SIZE
    ∧ (∀ call ∈ fillLoop buffer zeroBuffer offset stop, ∃ off,
        call = .copyBufferRegion buffer off zeroBuffer 0
          (ZERO_BUFFER_SIZE.min (stop - off))) := by
  intro n
  induction n using Nat.strong_induction_on with
  | _ n ih =>
    intro offset stop hn
    by_cases h : offset < stop
    · rw [fillLoop, dif_pos h]
      have hz : 0 < ZERO_BUFFER_SIZE := by decide
      have hsize : 0 < ZERO_BUFFER_SIZE.min (stop - offset) := by
        rw [Nat.lt_min]
        omega
      have hmle : ZERO_BUFFER_SIZE.min (stop - offset) ≤ stop - offset :=
        Nat.min_le_right _ _
      have hlt : stop - (offset + ZERO_BUFFER_SIZE.min (stop - offset)) < n := by
        omega
      obtain ⟨ihA, ihB, ihC⟩ := ih _ hlt (offset + ZERO_BUFFER_SIZE.min (stop - offset)) stop rfl
      refine ⟨?_, ?_, ?_⟩
      · intro _
        exact ⟨rfl, hsize, ihA (by omega)⟩
      · rw [List.length_cons, ihB]
        rcases Nat.le_total (stop - offset) ZERO_BUFFER_SIZE with hle | hle
        · have h1 : ZERO_BUFFER_SIZE.min (stop - offset) = stop - offset :=
            Nat.min_eq_right hle
          rw [h1]
          have h2 : stop - (offset + (stop - offset)) = 0 := by omega
          rw [h2]
          have h3 : (0 + ZERO_BUFFER_SIZE - 1) / ZERO_BUFFER_SIZE = 0 :=
            Nat.div_eq_of_lt (by omega)
          rw [h3]
          have h4 : (stop - offset + ZERO_BUFFER_SIZE - 1) / ZERO_BUFFER_SIZE = 1 := by
            apply Nat.div_eq_of_lt_le
            · omega
            · omega
          rw [h4]
        · have h1 : ZERO_BUFFER_SIZE.min (stop - offset) = ZERO_BUFFER_SIZE :=
            Nat.min_eq_left hle
          rw [h1]
          have h2 : stop - (offset + ZERO_BUFFER_SIZE) = (stop - offset) - ZERO_BUFFER_SIZE := by
            omega
          rw [h2]
          have h3 : stop - offset + ZERO_BUFFER_SIZE - 1
              = (stop - offset - ZERO_BUFFER_SIZE + ZERO_BUFFER_SIZE - 1) + ZERO_BUFFER_SIZE := by
            omega
          rw [h3, Nat.add_div_right _ hz]
      · intro call hc
        rw [List.mem_cons] at hc
        rcases hc with hc | hc
        · exact ⟨offset, hc⟩
        · exact ihC call hc
    · rw [fillLoop, dif_neg h]
      have hz : 0 < ZERO_BUFFER_SIZE := by decide
      refine ⟨?_, ?_, ?_⟩
      · intro hle
        show offset = stop
        omega
      · have h0 : stop - offset = 0 := by omega
        rw [h0, List.length_nil]
        exact (Nat.div_eq_of_lt (by omega)).symm
      · intro call hc
        exact absurd hc (List.not_mem_nil call)

/-- C6: a zero fill over a byte range of length `L > 0` issues exactly
`ceil(L / ZERO_BUFFER_SIZE)` copy operations from the shared zero
buffer, in increasing offset order, partitioning the range exactly (no
gaps, no overlaps, nothing outside), each sized
`min ZERO_BUFFER_SIZE remaining`. -/
theorem fill_buffer_chunked_copies (buffer zeroBuffer : Nat) (range : MemoryRange)
    (hpos : range.start < range.stop) :
    fillBuffer buffer zeroBuffer range 0
        = some (fillLoop buffer zeroBuffer range.start range.stop)
    ∧ (fillLoop buffer zeroBuffer range.start range.stop).length
        = ((range.stop - range.start) + ZERO_BUFFER_SIZE - 1) / ZERO_BUFFER_SIZE
    ∧ coversExactly (fillLoop buffer zeroBuffer range.start range.stop)
        range.start range.stop
    ∧ (∀ call ∈ fillLoop buffer zeroBuffer range.start range.stop, ∃ off,
        call = .copyBufferRegion buffer off zeroBuffer 0
          (ZERO_BUFFER_SIZE.min (range.stop - off))) := by
  obtain ⟨hA, hB, hC⟩ := fillLoop_props buffer zeroBuffer
    (range.stop - range.start) range.start range.stop rfl
  exact ⟨rfl, hB, hA (Nat.le_of_lt hpos), hC⟩

/-- Witness for `fill_buffer_chunked_copies`: filling 300000 bytes
takes exactly two chunked copies that cover the range. -/
theorem fill_buffer_chunked_copies_witness :
    fillBuffer 3 9 ⟨0, 300000⟩ 0 = some (fillLoop 3 9 0 300000)
    ∧ (fillLoop 3 9 0 300000).length = 2
    ∧ coversExactly (fillLoop 3 9 0 300000) 0 300000 := by
  have h := fill_buffer_chunked_copies 3 9 ⟨0, 300000⟩ (by decide)
  refine ⟨h.1, ?_, h.2.2.1⟩
  rw [h.2.1]
  decide

/-- The table-binding stage never fails when every table the layout
declares has its handle present in the bind group — regardless of the
dynamic-offset count. -/
theorem bindGroupTables_isSome (pass : Pass) (info : BindGroupInfo)
    (group : BindGroup) (invalidation : BindingInvalidation)
    (hv : info.tablesViews = true → group.handleViews.isSome = true)
    (hs : info.tablesSamplers = true → group.handleSamplers.isSome = true) :
    (bindGroupTables pass info group invalidation).isSome = true := by
  cases invalidation with
  | All =>
    unfold bindGroupTables
    cases hvb : info.tablesViews with
    | false =>
      cases hsb : info.tablesSamplers with
      | false => simp
      | true =>
        obtain ⟨x, hx⟩ := Option.isSome_iff_exists.mp (hs hsb)
        simp [hx]
    | true =>
      obtain ⟨x, hx⟩ := Option.isSome_iff_exists.mp (hv hvb)
      cases hsb : info.tablesSamplers with
      | false => simp [hx]
      | true =>
        obtain ⟨y, hy⟩ := Option.isSome_iff_exists.mp (hs hsb)
        simp [hx, hy]
  | DynamicOffsetsOnly => rfl

/-- C8 (amended): an out-of-range bind-group index and a non-zero fill
value panic immediately (no error value); a dynamic-offset count
mismatch, however, is not detected: `set_bind_group` completes
normally, binding only the zipped prefix of dynamic-offset slots. -/
theorem malformed_input_fatal (buffer zeroBuffer : Nat) (range : MemoryRange)
    (value : Nat) (pass : Pass) (layout : PipelineLayout) (index : Nat)
    (group : BindGroup) (dynamicOffsets : List Nat)
    (invalidation : BindingInvalidation) (info : BindGroupInfo)
    (hv : info.tablesViews = true → group.handleViews.isSome = true)
    (hs : info.tablesSamplers = true → group.handleSamplers.isSome = true) :
    (value ≠ 0 → fillBuffer buffer zeroBuffer range value = none)
    ∧ (layout.bindGroupInfos.length ≤ index →
        setBindGroup pass layout index group dynamicOffsets invalidation = none)
    ∧ (layout.bindGroupInfos.get? index = some info →
        (setBindGroup pass layout index group dynamicOffsets invalidation).isSome
          = true) := by
  refine ⟨?_, ?_, ?_⟩
  · intro hval
    unfold fillBuffer
    rw [if_neg hval]
  · intro hlen
    unfold setBindGroup
    rw [List.get?_eq_none.mpr hlen]
    rfl
  · intro hget
    unfold setBindGroup
    rw [hget]
    simp only [Option.bind_eq_bind, Option.some_bind]
    obtain ⟨⟨re1, ri1, bu⟩, htab⟩ := Option.isSome_iff_exists.mp
      (bindGroupTables_isSome pass info group invalidation hv hs)
    rw [htab]
    simp only [Option.some_bind]
    rcases hF : ((info.dynamicBuffers.zip group.dynamicBuffers).zip dynamicOffsets).foldl
        (fun acc t =>
          (acc.1.set acc.2 (RootElement.DynamicOffsetBuffer t.1.1 (t.1.2 + t.2)),
            acc.2 + 1)) (re1, ri1) with ⟨re2, ri2⟩
    split <;> rfl

/-- Counterexample to C8 as stated: a `set_bind_group` call whose
dynamic-offset count (0) differs from the layout's declared
dynamic-buffer count (1) returns normally — no panic. -/
theorem dynamic_offset_mismatch_no_panic :
    (setBindGroup passW layoutW 0 groupW [] BindingInvalidation.All).isSome = true
    ∧ ([] : List Nat).length ≠ infoW.dynamicBuffers.length := by
  constructor
  · decide
  · decide

/-- Witness for `malformed_input_fatal` at concrete inputs: a non-zero
fill value and an out-of-range group index both panic, and an in-range
call with too few dynamic offsets still completes. -/
theorem malformed_input_fatal_witness :
    fillBuffer 3 9 ⟨0, 4⟩ 1 = none
    ∧ setBindGroup passW layoutW 1 groupW [] BindingInvalidation.All = none
    ∧ (setBindGroup passW layoutW 0 groupW [4, 5] BindingInvalidation.All).isSome
        = true := by
  have h1 := malformed_input_fatal 3 9 ⟨0, 4⟩ 1 passW layoutW 1 groupW []
    BindingInvalidation.All infoW (fun _ => by decide) (fun h => absurd h (by decide))
  have h2 := malformed_input_fatal 3 9 ⟨0, 4⟩ 1 passW layoutW 0 groupW [4, 5]
    BindingInvalidation.All infoW (fun _ => by decide) (fun h => absurd h (by decide))
  exact ⟨h1.1 (by decide), h1.2.1 (by decide), h2.2.2 (by decide)⟩

/-- Pool contents survive pushes of further handles. -/
theorem mem_foldl_push (commandBuffers : List CommandBuffer) :
    ∀ (pool : List Nat) (x : Nat), x ∈ pool →
    x ∈ commandBuffers.foldl (fun pool cb => cb.raw :: pool) pool := by
  induction commandBuffers with
  | nil =>
    intro pool x hx
    exact hx
  | cons a t ih =>
    intro pool x hx
    rw [List.foldl_cons]
    exact ih _ x (List.mem_cons_of_mem _ hx)

/-- Every submitted command buffer's handle lands in the pool. -/
theorem raw_mem_foldl_push (commandBuffers : List CommandBuffer) :
    ∀ (pool : List Nat) (b : CommandBuffer), b ∈ commandBuffers →
    b.raw ∈ commandBuffers.foldl (fun pool cb => cb.raw :: pool) pool := by
  induction commandBuffers with
  | nil =>
    intro pool b hb
    exact absurd hb (List.not_mem_nil b)
  | cons a t ih =>
    intro pool b hb
    rw [List.foldl_cons]
    rw [List.mem_cons] at hb
    rcases hb with hb | hb
    · subst hb
      exact mem_foldl_push t _ _ (List.mem_cons_self _ _)
    · exact ih _ b hb

/-- C9: `begin_encoding` opens a list whose handle a following
`end_encoding` closes and hands over as the command buffer;
`discard_encoding` instead closes the handle and returns it to the
pool, producing no buffer, and the next `begin_encoding` pops and
resets that same pooled handle (a `reset`, not a `create`); `reset_all`
returns submitted command buffers' handles to the same pool. -/
theorem encoding_lifecycle_roundtrip (s : EncoderState)
    (commandBuffers : List CommandBuffer) :
    (∃ handle : Nat,
      (beginEncoding s).1.list = some handle
      ∧ endEncoding (beginEncoding s).1
          = some ({ (beginEncoding s).1 with list := none },
              [.close handle], ⟨handle⟩)
      ∧ discardEncoding (beginEncoding s).1
          = ({ (beginEncoding s).1 with list := none, freeLists := handle :: (beginEncoding s).1.freeLists },
              [.close handle])
      ∧ beginEncoding (discardEncoding (beginEncoding s).1).1
          = ((beginEncoding s).1, [.reset handle]))
    ∧ (∀ b ∈ commandBuffers, b.raw ∈ (resetAll s commandBuffers).freeLists)
    ∧ (resetAll s commandBuffers).list = s.list := by
  refine ⟨?_, ?_, rfl⟩
  · cases hfl : s.freeLists with
    | nil =>
      refine ⟨s.nextHandle, ?_, ?_, ?_, ?_⟩ <;>
        simp [beginEncoding, endEncoding, discardEncoding, hfl]
    | cons head tail =>
      refine ⟨head, ?_, ?_, ?_, ?_⟩ <;>
        simp [beginEncoding, endEncoding, discardEncoding, hfl]
  · intro b hb
    exact raw_mem_foldl_push commandBuffers s.freeLists b hb

/-- C10: with no list open, `discard_encoding` is a total no-op: no
panic, no event, and the encoder state — the free-list pool included —
is unchanged; `end_encoding` on the same state panics instead. -/
theorem discard_without_open_list_noop (s : EncoderState)
    (hnone : s.list = none) :
    discardEncoding s = (s, []) ∧ endEncoding s = none := by
  unfold discardEncoding endEncoding
  rw [hnone]
  exact ⟨rfl, rfl⟩

/-- Witness for `discard_without_open_list_noop` at a concrete closed
encoder state. -/
theorem discard_without_open_list_noop_witness :
    discardEncoding ⟨none, [5], 7, [], Pass.clear⟩ = (⟨none, [5], 7, [], Pass.clear⟩, [])
    ∧ endEncoding ⟨none, [5], 7, [], Pass.clear⟩ = none :=
  discard_without_open_list_noop ⟨none, [5], 7, [], Pass.clear⟩ rfl

/-- C2: for any buffer or texture transition whose mapped before-state
equals its mapped after-state, no transition barrier is emitted; a
read/write hazard (UAV) barrier is emitted exactly when the usage is
the exclusive storage write, and no barrier of any kind otherwise. -/
theorem equal_state_uav_only (mapState : Nat → Nat)
    (b : BufferBarrier) (t : TextureBarrier)
    (hb : mapState b.usageStart = mapState b.usageEnd)
    (ht : mapState t.usageStart = mapState t.usageEnd) :
    bufferBarrier mapState b
        = (if b.usageStart = BufferUses.STORAGE_WRITE then [.uav b.buffer] else [])
    ∧ textureBarrierList mapState t
        = (if t.usageStart = TextureUses.STORAGE_WRITE then [.uav t.texture.resource] else [])
    ∧ (∀ td, Barrier.transition td ∉ bufferBarrier mapState b)
    ∧ (∀ td, Barrier.transition td ∉ textureBarrierList mapState t) := by
  have h1 : bufferBarrier mapState b
      = if b.usageStart = BufferUses.STORAGE_WRITE then [.uav b.buffer] else [] := by
    unfold bufferBarrier
    simp [hb]
  have h2 : textureBarrierList mapState t
      = if t.usageStart = TextureUses.STORAGE_WRITE then [.uav t.texture.resource] else [] := by
    unfold textureBarrierList
    simp [ht]
  refine ⟨h1, h2, ?_, ?_⟩
  · intro td hmem
    rw [h1] at hmem
    split at hmem <;> simp at hmem
  · intro td hmem
    rw [h2] at hmem
    split at hmem <;> simp at hmem

/-- Witness for `equal_state_uav_only`: a storage-write buffer barrier
with unchanged state yields one UAV barrier; a sampled-usage texture
barrier with unchanged state yields nothing. -/
theorem equal_state_uav_only_witness :
    bufferBarrier (fun _ => 0) ⟨7, 256, 256⟩ = [.uav 7]
    ∧ textureBarrierList (fun _ => 0) ⟨⟨9, 1, 1⟩, ⟨.All, 0, some 1, 0, some 1⟩, 64, 64⟩ = [] := by
  have h := equal_state_uav_only (fun _ => 0) ⟨7, 256, 256⟩
    ⟨⟨9, 1, 1⟩, ⟨.All, 0, some 1, 0, some 1⟩, 64, 64⟩ rfl rfl
  refine ⟨?_, ?_⟩
  · rw [h.1]; decide
  · rw [h.2.1]; decide

/-- C7: each transition call clears the scratch barrier list at the
start (its output does not depend on the previous scratch contents),
flushes all barriers it produced in exactly one native
`ResourceBarrier` batch call, and issues no native call at all when it
produced zero barriers — in particular on empty input. -/
theorem transition_scratch_batching (mapState : Nat → Nat)
    (temp0 temp1 : List Barrier) (bufs : List BufferBarrier)
    (texs : List TextureBarrier) :
    (transitionBuffers mapState temp0 bufs = transitionBuffers mapState temp1 bufs)
    ∧ (transitionTextures mapState temp0 texs = transitionTextures mapState temp1 texs)
    ∧ ((transitionBuffers mapState temp0 bufs).2
        = if (transitionBuffers mapState temp0 bufs).1 = [] then []
          else [.resourceBarrier (transitionBuffers mapState temp0 bufs).1])
    ∧ ((transitionTextures mapState temp0 texs).2
        = if (transitionTextures mapState temp0 texs).1 = [] then []
          else [.resourceBarrier (transitionTextures mapState temp0 texs).1])
    ∧ (transitionBuffers mapState temp0 []).2 = []
    ∧ (transitionTextures mapState temp0 []).2 = [] := by
  unfold transitionBuffers transitionTextures
  simp only [List.drop_length, List.foldl_nil, List.isEmpty_iff]
  refine ⟨trivial, trivial, trivial, trivial, ?_, ?_⟩ <;> simp

/-- C1: for a texture transition with distinct mapped before/after
states, a range covering the texture's full mip/array/aspect extent
yields exactly one transition barrier scoped to all subresources
(flushed in a single batch call); a strictly smaller range covering `M`
mips × `N` layers yields exactly `M × N` transition barriers, one per
(mip level, array layer) pair of the range. -/
theorem texture_transition_subresource_split (mapState : Nat → Nat)
    (b : TextureBarrier) (temp0 : List Barrier)
    (hne : mapState b.usageStart ≠ mapState b.usageEnd) :
    (coversWholeTexture b →
      textureBarrierList mapState b
          = [.transition ⟨b.texture.resource, ALL_SUBRESOURCES,
              mapState b.usageStart, mapState b.usageEnd⟩]
        ∧ (transitionTextures mapState temp0 [b]).2
          = [.resourceBarrier [.transition ⟨b.texture.resource, ALL_SUBRESOURCES,
              mapState b.usageStart, mapState b.usageEnd⟩]])
    ∧ (¬coversWholeTexture b →
      (textureBarrierList mapState b).length
          = resolvedMipCount b * resolvedArrayCount b
        ∧ textureBarrierList mapState b
          = ((List.range (resolvedMipCount b)).product
              (List.range (resolvedArrayCount b))).map fun p =>
              .transition ⟨b.texture.resource,
                b.texture.calcSubresource (b.range.baseMipLevel + p.1)
                  (b.range.baseArrayLayer + p.2) 0,
                mapState b.usageStart, mapState b.usageEnd⟩) := by
  constructor
  · intro hfull
    have h1 : textureBarrierList mapState b
        = [.transition ⟨b.texture.resource, ALL_SUBRESOURCES,
            mapState b.usageStart, mapState b.usageEnd⟩] := by
      unfold textureBarrierList
      rw [if_pos hne, if_pos hfull]
    refine ⟨h1, ?_⟩
    unfold transitionTextures
    simp [List.drop_length, h1]
  · intro hpart
    have h1 : textureBarrierList mapState b
        = (List.range (resolvedMipCount b)).flatMap fun relMipLevel =>
            (List.range (resolvedArrayCount b)).map fun relArrayLayer =>
              .transition ⟨b.texture.resource,
                b.texture.calcSubresource (b.range.baseMipLevel + relMipLevel)
                  (b.range.baseArrayLayer + relArrayLayer) 0,
                mapState b.usageStart, mapState b.usageEnd⟩ := by
      unfold textureBarrierList
      rw [if_pos hne, if_neg hpart]
    constructor
    · rw [h1, List.length_flatMap]
      simp [Function.comp_def, List.map_const', List.sum_replicate, Nat.mul_comm]
    · rw [h1, List.product]
      rw [List.map_flatMap]
      simp [List.map_map, Function.comp_def]

/-- Witness for `texture_transition_subresource_split`: a full-range
barrier on a 3-mip, 2-layer texture yields one all-subresource barrier;
a range of 2 mips × 2 layers on the same texture yields 4 per-pair
barriers. -/
theorem texture_transition_subresource_split_witness :
    (transitionTextures (fun u => u) []
        [⟨⟨5, 3, 2⟩, ⟨.All, 0, none, 0, none⟩, 1, 2⟩]).2
      = [.resourceBarrier [.transition ⟨5, ALL_SUBRESOURCES, 1, 2⟩]]
    ∧ (textureBarrierList (fun u => u)
        ⟨⟨5, 3, 2⟩, ⟨.All, 0, some 2, 0, some 2⟩, 1, 2⟩).length = 4 := by
  constructor
  · exact (texture_transition_subresource_split (fun u => u)
      ⟨⟨5, 3, 2⟩, ⟨.All, 0, none, 0, none⟩, 1, 2⟩ [] (by decide)
      |>.1 (by decide)).2
  · exact (texture_transition_subresource_split (fun u => u)
      ⟨⟨5, 3, 2⟩, ⟨.All, 0, some 2, 0, some 2⟩, 1, 2⟩ [] (by decide)
      |>.2 (by decide)).1

end Dx12
